import Mathlib

/-!
Verification development for the TrunkedSdr receiver.

The definitions below are a shallow embedding of the C++ sources:
bit-field extraction helpers, the P25 / SmartNet / DMR / TETRA control
channel decoders, the pi/4-DQPSK differential decoder, the call manager
and the audio playback queue.  Machine integers are modelled as `Nat`
(with explicit truncation where the C++ type can overflow); the C++
`Frequency` type is `double`, but every frequency computed by the
sources is an integer product well below `2^53`, hence exact in IEEE
double arithmetic, and is modelled as `Nat`.  Fallible paths return
`Option`; the invocation of a registered callback is modelled by an
`Option` result (`some g` means the callback fires with grant `g`).
-/

namespace TrunkedSdr

/-! ## Bit-field helpers shared by the decoders -/

/-- `P25Decoder::bitsToUint32` / `DMRDecoder::bitsToUint32`:
`for (i = 0; i < count && i < 32; i++) result = (result << 1) | (bits[start+i] & 1)`.
Since at most 32 masked bits are shifted in, the `uint32_t` accumulator cannot
wrap, and `(result << 1) | (bits[i] & 1)` equals `2 * result + bits[i] % 2`
because the or-ed bit is below the shifted value's lowest set bit. -/
def bitsToUint32 (bits : List Nat) (start count : Nat) : Nat :=
  (List.range (min count 32)).foldl (fun acc i => acc * 2 + bits.getD (start + i) 0 % 2) 0

/-- `SmartNetDecoder::bitsToUint16`: identical loop capped at 16 bits. -/
def bitsToUint16 (bits : List Nat) (start count : Nat) : Nat :=
  (List.range (min count 16)).foldl (fun acc i => acc * 2 + bits.getD (start + i) 0 % 2) 0

/-- `P25Decoder::bitsToU64`:
`for (i = 0; i < count && (start + i) < bits.size(); i++) ...` on a `uint64_t`
accumulator (hence the mod `2^64` truncation). -/
def bitsToU64 (bits : List Nat) (start count : Nat) : Nat :=
  (List.range (min count (bits.length - start))).foldl
    (fun acc i => (acc * 2 + bits.getD (start + i) 0 % 2) % 2 ^ 64) 0

/-- `__builtin_popcountll` on a 64-bit operand: the number of set bits. -/
def popcount64 (n : Nat) : Nat :=
  ((List.range 64).filter (fun i => n.testBit i)).length

/-- Specification-side notion: the Hamming distance between two words of at
most 64 bits, i.e. the number of bit positions where they differ. -/
def hammingDist (a b : Nat) : Nat :=
  ((List.range 64).filter (fun i => a.testBit i != b.testBit i)).length

/-- Test-harness encoder: the `w`-bit MSB-first binary representation of `n`,
used to build concrete synthetic frames for the decoders. -/
def natToBits (w n : Nat) : List Nat :=
  (List.range w).map (fun i => n / 2 ^ (w - 1 - i) % 2)

/-! ## Association lists modelling `std::map` (unique keys; `operator[]`
inserts or overwrites, `erase` removes the key). -/

def alistLookup {α : Type} : List (Nat × α) → Nat → Option α
  | [], _ => none
  | (k, v) :: rest, key => if k = key then some v else alistLookup rest key

def alistInsert {α : Type} : List (Nat × α) → Nat → α → List (Nat × α)
  | [], key, v => [(key, v)]
  | (k, w) :: rest, key, v =>
      if k = key then (key, v) :: rest else (k, w) :: alistInsert rest key v

def alistErase {α : Type} : List (Nat × α) → Nat → List (Nat × α)
  | [], _ => []
  | (k, w) :: rest, key => if k = key then rest else (k, w) :: alistErase rest key

/-! ## Common data model (`utils/types.h`) -/

inductive CallType where
  | GROUP
  | PRIVATE
  | EMERGENCY
  | ENCRYPTED
  | UNKNOWN
deriving DecidableEq

/-- `CallGrant` from `types.h`.  The wall-clock `timestamp` field (set from
`std::time(nullptr)`) is omitted: no claim concerns it. -/
structure CallGrant where
  talkgroup : Nat
  radio_id : Nat
  frequency : Nat
  ctype : CallType
  priority : Nat
  encrypted : Bool
deriving DecidableEq

/-! ## P25 decoder (`decoders/p25_decoder.cpp`) -/

def P25_FRAME_SYNC_1 : Nat := 0x5575F5FF77FF

namespace P25Decoder

/-- `P25Decoder::detectFrameSync`: reject short buffers, then accept when the
popcount of the first 48 bits xor-ed with the sync constant is at most 4. -/
def detectFrameSync (bit_buffer : List Nat) : Bool :=
  if bit_buffer.length < 48 then false
  else decide (popcount64 ((bitsToU64 bit_buffer 0 48 ^^^ P25_FRAME_SYNC_1)) ≤ 4)

/-- `P25Decoder::processIdentifierUpdate` acting on `frequency_table_`
(a `std::map<uint8_t, Frequency>`): extracts id (4 bits at 6), base frequency
multiplier (32 bits at 10), spacing (10 bits at 42), offset (10 bits at 52),
and stores `base_freq * 5000.0` for the identifier.  The extracted spacing and
offset are not stored anywhere. -/
def processIdentifierUpdate (table : List (Nat × Nat)) (data : List Nat) :
    List (Nat × Nat) :=
  let identifier := bitsToUint32 data 6 4
  let base_freq := bitsToUint32 data 10 32
  let _spacing := bitsToUint32 data 42 10
  let _offset := bitsToUint32 data 52 10
  alistInsert table identifier (base_freq * 5000)

/-- `P25Decoder::processGroupVoiceGrant`: extracts options (8 bits at 6),
frequency identifier (12 bits at 22), talkgroup (16 bits at 34), source
(24 bits at 50); looks up `frequency_table_[freq_id & 0xFF]` defaulting to 0;
invokes the grant callback only when the resolved frequency is positive. -/
def processGroupVoiceGrant (table : List (Nat × Nat)) (data : List Nat) :
    Option CallGrant :=
  let options := bitsToUint32 data 6 8
  let freq_id := bitsToUint32 data 22 12
  let talkgroup := bitsToUint32 data 34 16
  let source := bitsToUint32 data 50 24
  let frequency :=
    match alistLookup table ((freq_id &&& 0xFF)) with
    | some f => f
    | none => 0
  if 0 < frequency then
    some { talkgroup := talkgroup, radio_id := source, frequency := frequency,
           ctype := CallType.GROUP, priority := 5,
           encrypted := decide ((options &&& 0x40) ≠ 0) }
  else none

end P25Decoder

/-! ## SmartNet decoder (`decoders/smartnet_decoder.cpp`) -/

def SMARTNET_SYNC : Nat := 0x5555

namespace SmartNetDecoder

/-- The 16-bit word assembled from the head of the bit buffer in
`SmartNetDecoder::detectSync`. -/
def syncWordAt (bits : List Nat) : Nat :=
  (List.range 16).foldl (fun w i => w * 2 + bits.getD i 0 % 2) 0

/-- `SmartNetDecoder::detectSync`: accept when at most 2 of the first 16 bits
differ from the sync constant (`__builtin_popcount` of the xor). -/
def detectSync (bit_buffer : List Nat) : Bool :=
  if bit_buffer.length < 16 then false
  else decide (popcount64 ((syncWordAt bit_buffer ^^^ SMARTNET_SYNC)) ≤ 2)

/-- `SmartNetDecoder::checkCRC`: the source is a stub —
`return true;  // Placeholder`. -/
def checkCRC (_frame : List Nat) : Bool := true

/-- `SmartNetDecoder::decodeOSW`: command top 5 bits zero means group call;
the low 6 bits are the channel; frequency is `base + channel * spacing`;
the grant carries the address as talkgroup, radio id 0, not encrypted. -/
def decodeOSW (base_frequency channel_spacing : Nat)
    (address _group command : Nat) : Option CallGrant :=
  let cmd_type := ((command >>> 6) &&& 0x1F)
  if cmd_type = 0 then
    let channel := (command &&& 0x3F)
    some { talkgroup := address, radio_id := 0,
           frequency := base_frequency + channel * channel_spacing,
           ctype := CallType.GROUP, priority := 5, encrypted := false }
  else none

/-- `SmartNetDecoder::processFrame` on one 76-bit frame: extract address
(10 bits at 16), group (3 bits at 26), command (11 bits at 29); reject when
`checkCRC` fails (it never does); otherwise decode the OSW and report success.
The second component is the grant emitted by `decodeOSW`, if any. -/
def processFrame (base_frequency channel_spacing : Nat) (bits : List Nat) :
    Bool × Option CallGrant :=
  let address := bitsToUint16 bits 16 10
  let group := bitsToUint16 bits 26 3
  let command := bitsToUint16 bits 29 11
  if checkCRC bits = false then (false, none)
  else (true, decodeOSW base_frequency channel_spacing address group command)

end SmartNetDecoder

/-! ## DMR decoder (`european/dmr/dmr_decoder.cpp`) -/

namespace DMRDecoder

/-- `DMRDecoder::parseChannelGrant` on the BPTC-decoded 96-bit CSBK payload:
extracts source (24 bits at 16), destination (24 bits at 40) and the logical
slot bit, and emits the grant through the callback unconditionally, with the
frequency taken from `rest_channel_freq_` as it currently stands (0.0 at
construction; the source comments "Would calculate actual frequency").  The
internal `active_calls_` `DMRCall` bookkeeping and the detected color code,
which only feed that record, are not modelled: no claim concerns them. -/
def parseChannelGrant (rest_channel_freq : Nat) (data : List Nat) :
    Option CallGrant :=
  let source_id := bitsToUint32 data 16 24
  let dest_id := bitsToUint32 data 40 24
  let _logical_slot := bitsToUint32 data 8 1 % 2
  some { talkgroup := dest_id, radio_id := source_id,
         frequency := rest_channel_freq, ctype := CallType.GROUP,
         priority := 5, encrypted := false }

end DMRDecoder

/-! ## TETRA physical layer (`european/tetra/tetra_phy.cpp`) -/

def TETRA_TRAINING_SEQ_NORMAL : Nat := 0x0FD
def TETRA_TRAINING_SEQ_EXTENDED : Nat := 0x6E4
def TETRA_TRAINING_SEQ_SYNC : Nat := 0x3AA

namespace TETRAPhysicalLayer

/-- Constructor value of `sync_errors_allowed_`. -/
def SYNC_ERRORS_ALLOWED : Nat := 3

/-- The 11-bit candidate word at `pos`:
`seq = (seq << 1) | bit_buffer_[pos + i]` on a `uint16_t` accumulator (the
buffer bytes are or-ed in unmasked, hence the `Nat.lor` and the 16-bit
truncation). -/
def seqAt (bits : List Nat) (pos : Nat) : Nat :=
  (List.range 11).foldl (fun seq i => ((seq * 2) ||| bits.getD (pos + i) 0) % 65536) 0

/-- `TETRAPhysicalLayer::hammingDistance(a, b, bits)`: counts the set bits of
the xor among the low `w` positions. -/
def hammingDistance (a b w : Nat) : Nat :=
  (List.range w).foldl (fun d i => if Nat.testBit (a ^^^ b) i then d + 1 else d) 0

/-- The `min_dist` computed at window position `pos`: the minimum distance of
the candidate word to the three known training sequences. -/
def minDistAt (bits : List Nat) (pos : Nat) : Nat :=
  min (hammingDistance (seqAt bits pos) TETRA_TRAINING_SEQ_NORMAL 11)
    (min (hammingDistance (seqAt bits pos) TETRA_TRAINING_SEQ_EXTENDED 11)
      (hammingDistance (seqAt bits pos) TETRA_TRAINING_SEQ_SYNC 11))

/-- `TETRAPhysicalLayer::detectTrainingSequence`: reject buffers shorter than
64 bits; slide over `pos < min(size - 11, 64)` tracking the best (smallest)
distance, starting from 100; accept when the best distance is within
`sync_errors_allowed_`.  (The bit consumption and burst-type bookkeeping on
success do not affect the accept/reject result and are not modelled.) -/
def detectTrainingSequence (bits : List Nat) : Bool :=
  if bits.length < 64 then false
  else
    decide ((List.range (min (bits.length - 11) 64)).foldl
      (fun best pos => min best (minDistAt bits pos)) 100 ≤ SYNC_ERRORS_ALLOWED)

end TETRAPhysicalLayer

/-! ## pi/4-DQPSK demodulator (`dsp/dqpsk_demod.cpp`) -/

namespace DQPSKDemodulator

/-- Specification-side dibit table: `{0 -> 00, 1 -> 01, 2 -> 11, 3 -> 10}`
applied to the differential phase index (the spec's words, for comparison). -/
def dibitMapSpec : Int → Nat × Nat
  | 0 => (0, 0)
  | 1 => (0, 1)
  | 2 => (1, 1)
  | 3 => (1, 0)
  | _ => (0, 0)

/-- `DQPSKDemodulator::differentialDecode`: `diff = (symbol - prev + 4) % 4`
(C++ `%` on the here-nonnegative numerator agrees with `Int.emod`); the dibit
is chosen by identical switch tables on both constellation branches; the state
update stores the symbol and toggles the constellation flag.  For `diff`
outside 0..3 the C++ switch leaves the output parameters unassigned; that case
is unreachable for symbol inputs in 0..3 and is modelled as `(0, 0)`. -/
def differentialDecode (symbol prev_phase_index : Int)
    (alternate_constellation : Bool) : (Nat × Nat) × Int × Bool :=
  let diff : Int := (symbol - prev_phase_index + 4) % 4
  let dibit :=
    if alternate_constellation then
      match diff with
      | 0 => (0, 0)
      | 1 => (0, 1)
      | 2 => (1, 1)
      | 3 => (1, 0)
      | _ => (0, 0)
    else
      match diff with
      | 0 => (0, 0)
      | 1 => (0, 1)
      | 2 => (1, 1)
      | 3 => (1, 0)
      | _ => (0, 0)
  (dibit, symbol, ! alternate_constellation)

end DQPSKDemodulator

/-! ## Audio output (`audio/audio_output.cpp`) -/

/-- `AudioFrame` from `types.h`; PCM samples are 16-bit signed integers. -/
structure AudioFrame where
  samples : List Int
  talkgroup : Nat
  radio_id : Nat
  timestamp : Nat
  rssi : Int
deriving DecidableEq

namespace AudioOutput

/-- `AudioOutput::queueAudio`: take the queue mutex and push the frame.
There is no size check, no drop and no counter in the source. -/
def queueAudio (audio_queue : List AudioFrame) (frame : AudioFrame) :
    List AudioFrame :=
  audio_queue ++ [frame]

/-- `AudioOutput::processQueue`: on an empty queue clear `playing_` and do
nothing; otherwise pop the front frame and play it.  The second component is
the frame handed to `playAudio`, if any. -/
def processQueue (audio_queue : List AudioFrame) :
    List AudioFrame × Option AudioFrame :=
  match audio_queue with
  | [] => ([], none)
  | frame :: rest => (rest, some frame)

end AudioOutput

/-! ## Call manager (`audio/call_manager.cpp`) -/

/-- `ActiveCall` from `call_manager.h`. -/
structure ActiveCall where
  grant : CallGrant
  start_time : Nat
  last_activity : Nat
  frame_count : Nat
  recording : Bool
deriving DecidableEq

/-- The mutable maps and the `total_calls_` counter of `CallManager`.  The
wall-clock reads (`system_clock::now()` in milliseconds) are passed in as a
`now` argument. -/
structure CallManagerState where
  active_calls : List (Nat × ActiveCall)
  enabled_talkgroups : List (Nat × Bool)
  talkgroup_priorities : List (Nat × Nat)
  total_calls : Nat
deriving DecidableEq

namespace CallManager

def CALL_TIMEOUT_MS : Nat := 5000

/-- Constructor state: empty maps, `total_calls_ = 0`. -/
def initialState : CallManagerState :=
  { active_calls := [], enabled_talkgroups := [], talkgroup_priorities := [],
    total_calls := 0 }

/-- `CallManager::isTalkgroupEnabled`: an explicit entry decides; otherwise
allow exactly when the enabled map is empty. -/
def isTalkgroupEnabled (s : CallManagerState) (talkgroup : Nat) : Bool :=
  match alistLookup s.enabled_talkgroups talkgroup with
  | some b => b
  | none => s.enabled_talkgroups.isEmpty

/-- `CallManager::handleGrant`: drop when the talkgroup is not enabled;
refresh `last_activity` when a call already exists; otherwise insert a fresh
`ActiveCall` (with `recording` from `audio_config_.record_calls`) and
increment `total_calls_`. -/
def handleGrant (s : CallManagerState) (grant : CallGrant) (now : Nat)
    (record_calls : Bool) : CallManagerState :=
  if isTalkgroupEnabled s grant.talkgroup then
    match alistLookup s.active_calls grant.talkgroup with
    | some call =>
        let refreshed := { call with last_activity := now }
        { s with active_calls := alistInsert s.active_calls grant.talkgroup refreshed }
    | none =>
        let fresh : ActiveCall :=
          { grant := grant, start_time := now, last_activity := now,
            frame_count := 0, recording := record_calls }
        { s with
          active_calls := alistInsert s.active_calls grant.talkgroup fresh,
          total_calls := s.total_calls + 1 }
  else s

/-- `CallManager::handleAudioFrame` as it acts on the call map: drop audio for
inactive talkgroups, otherwise refresh `last_activity` and bump
`frame_count`.  (Queueing into `AudioOutput` is modelled separately.) -/
def handleAudioFrame (s : CallManagerState) (talkgroup now : Nat) :
    CallManagerState :=
  match alistLookup s.active_calls talkgroup with
  | none => s
  | some call =>
      let refreshed :=
        { call with last_activity := now, frame_count := call.frame_count + 1 }
      { s with active_calls := alistInsert s.active_calls talkgroup refreshed }

/-- `CallManager::endCall`: erase the entry if present. -/
def endCall (s : CallManagerState) (talkgroup : Nat) : CallManagerState :=
  { s with active_calls := alistErase s.active_calls talkgroup }

/-- `uint64_t` subtraction `a - b` for operands below `2^64`. -/
def u64sub (a b : Nat) : Nat := (a + 2 ^ 64 - b) % 2 ^ 64

/-- `CallManager::cleanupInactiveCalls`: erase every entry with
`now - last_activity > CALL_TIMEOUT_MS` (computed in `uint64_t`). -/
def cleanupInactiveCalls (s : CallManagerState) (now : Nat) : CallManagerState :=
  let kept :=
    s.active_calls.filter
      (fun e => decide (u64sub now e.2.last_activity ≤ CALL_TIMEOUT_MS))
  { s with active_calls := kept }

/-- `CallManager::enableTalkgroup`: mark enabled and record the priority. -/
def enableTalkgroup (s : CallManagerState) (talkgroup priority : Nat) :
    CallManagerState :=
  { s with
    enabled_talkgroups := alistInsert s.enabled_talkgroups talkgroup true,
    talkgroup_priorities := alistInsert s.talkgroup_priorities talkgroup priority }

/-- `CallManager::disableTalkgroup`: `enabled_talkgroups_[talkgroup] = false`
— this inserts a `false` entry even for a never-enabled talkgroup. -/
def disableTalkgroup (s : CallManagerState) (talkgroup : Nat) : CallManagerState :=
  { s with enabled_talkgroups := alistInsert s.enabled_talkgroups talkgroup false }

/-- `CallManager::setTalkgroupPriority`. -/
def setTalkgroupPriority (s : CallManagerState) (talkgroup priority : Nat) :
    CallManagerState :=
  { s with talkgroup_priorities := alistInsert s.talkgroup_priorities talkgroup priority }

/-- The state-mutating public operations of `CallManager`. -/
inductive Op where
  | grantOp (grant : CallGrant) (now : Nat) (record_calls : Bool)
  | audioOp (talkgroup now : Nat)
  | endOp (talkgroup : Nat)
  | cleanupOp (now : Nat)
  | enableOp (talkgroup priority : Nat)
  | disableOp (talkgroup : Nat)
  | priorityOp (talkgroup priority : Nat)
deriving DecidableEq

def applyOp (s : CallManagerState) : Op → CallManagerState
  | Op.grantOp grant now record_calls => handleGrant s grant now record_calls
  | Op.audioOp talkgroup now => handleAudioFrame s talkgroup now
  | Op.endOp talkgroup => endCall s talkgroup
  | Op.cleanupOp now => cleanupInactiveCalls s now
  | Op.enableOp talkgroup priority => enableTalkgroup s talkgroup priority
  | Op.disableOp talkgroup => disableTalkgroup s talkgroup
  | Op.priorityOp talkgroup priority => setTalkgroupPriority s talkgroup priority

/-- A sequence of operations applied in order. -/
def runOps (s : CallManagerState) (ops : List Op) : CallManagerState :=
  ops.foldl applyOp s

end CallManager

/-! ## Concrete synthetic inputs used by the witnesses and counterexamples -/

/-- A 144-bit `IDENTIFIER_UPDATE` TSBK laid out at the offsets read by
`processIdentifierUpdate`: opcode `0x3C`, id 1, base multiplier 170000000,
spacing 100, offset 0, zero padding. -/
def p25IdentifierUpdateBits : List Nat :=
  natToBits 6 0x3C ++ natToBits 4 1 ++ natToBits 32 170000000 ++
    natToBits 10 100 ++ natToBits 10 0 ++ List.replicate 82 0

/-- A 144-bit `GROUP_VOICE_GRANT` TSBK laid out at the offsets read by
`processGroupVoiceGrant`: opcode 0, options 0, service 0, 12-bit channel
field `0x101` (channel identifier 1 in the high nibble; the decoder keys its
table lookup on the low 8 bits, also 1), talkgroup 1234, source 5678. -/
def p25GroupVoiceGrantBits : List Nat :=
  natToBits 6 0 ++ natToBits 8 0 ++ natToBits 8 0 ++ natToBits 12 0x101 ++
    natToBits 16 1234 ++ natToBits 24 5678 ++ List.replicate 70 0

/-- A decoded 96-bit DMR CSBK `CHANNEL_GRANT` payload: opcode `0x06`,
source 5678 at bit 16, destination 1234 at bit 40. -/
def dmrCsbkGrantData : List Nat :=
  natToBits 6 0x06 ++ natToBits 10 0 ++ natToBits 24 5678 ++
    natToBits 24 1234 ++ List.replicate 32 0

/-- A 76-bit SmartNet frame: sync `0x5555`, address 101, group 0, command 10
(group call on channel 10), CRC field `0x0001`, status 0. -/
def smartnetFrameA : List Nat :=
  natToBits 16 0x5555 ++ natToBits 10 101 ++ natToBits 3 0 ++
    natToBits 11 10 ++ natToBits 16 0x0001 ++ natToBits 20 0

/-- The same frame with the CRC field replaced by `0xFFFE`; at most one of the
two fields can match any CRC computed over the data fields. -/
def smartnetFrameB : List Nat :=
  natToBits 16 0x5555 ++ natToBits 10 101 ++ natToBits 3 0 ++
    natToBits 11 10 ++ natToBits 16 0xFFFE ++ natToBits 20 0

/-- 48 bits: the exact P25 frame sync pattern. -/
def p25SyncExactBits : List Nat := natToBits 48 P25_FRAME_SYNC_1

/-- 16 bits: the exact SmartNet sync pattern. -/
def smartnetSyncExactBits : List Nat := natToBits 16 SMARTNET_SYNC

/-- 64 bits: the TETRA synchronization training sequence followed by zeros. -/
def tetraSyncWindowBits : List Nat :=
  natToBits 11 TETRA_TRAINING_SEQ_SYNC ++ List.replicate 53 0

/-- A minimal audio frame tagged with talkgroup `n`. -/
def mkAudioFrame (n : Nat) : AudioFrame :=
  { samples := [], talkgroup := n, radio_id := 0, timestamp := 0, rssi := -60 }

/-- A concrete grant used by the call-manager witnesses. -/
def witnessGrant : CallGrant :=
  { talkgroup := 7, radio_id := 42, frequency := 851000000,
    ctype := CallType.GROUP, priority := 5, encrypted := false }

/-- A concrete active call whose last activity is at 1000 ms. -/
def witnessCall : ActiveCall :=
  { grant := witnessGrant, start_time := 1000, last_activity := 1000,
    frame_count := 0, recording := false }

/-- A call-manager state holding exactly the call above, with no policy
entries and one total call. -/
def witnessState : CallManagerState :=
  { active_calls := [(7, witnessCall)], enabled_talkgroups := [],
    talkgroup_priorities := [], total_calls := 1 }

/-! ## Helper lemmas -/

theorem alistLookup_insert_self {α : Type} (l : List (Nat × α)) (k : Nat) (v : α) :
    alistLookup (alistInsert l k v) k = some v := by
  induction l with
  | nil => simp [alistInsert, alistLookup]
  | cons hd tl ih =>
      by_cases h : hd.1 = k
      · simp [alistInsert, alistLookup, h]
      · simp [alistInsert, alistLookup, h, ih]

theorem alistLookup_insert_ne {α : Type} (l : List (Nat × α)) (k key : Nat) (v : α)
    (h : k ≠ key) : alistLookup (alistInsert l k v) key = alistLookup l key := by
  induction l with
  | nil => simp [alistInsert, alistLookup, h]
  | cons hd tl ih =>
      by_cases hk : hd.1 = k
      · simp only [alistInsert, hk, if_pos rfl, alistLookup, h]
        simp [alistLookup, hk]
      · simp only [alistInsert, hk, if_neg hk, alistLookup]
        by_cases hkey : hd.1 = key
        · simp [hkey]
        · simp [hkey, ih]

theorem alistInsert_ne_nil {α : Type} (l : List (Nat × α)) (k : Nat) (v : α) :
    alistInsert l k v ≠ [] := by
  cases l with
  | nil => simp [alistInsert]
  | cons hd tl =>
      by_cases h : hd.1 = k <;> simp [alistInsert, h]

theorem u64sub_eq_sub {a b : Nat} (hba : b ≤ a) (ha : a < 2 ^ 64) :
    CallManager.u64sub a b = a - b := by
  unfold CallManager.u64sub
  have h3 : a + 2 ^ 64 - b = (a - b) + 2 ^ 64 := by omega
  rw [h3, Nat.add_mod_right, Nat.mod_eq_of_lt (by omega)]

theorem foldl_count_eq (p : Nat → Bool) (l : List Nat) :
    ∀ a : Nat, l.foldl (fun d i => if p i then d + 1 else d) a
      = a + (l.filter p).length := by
  induction l with
  | nil => intro a; simp
  | cons x xs ih =>
      intro a
      by_cases hx : p x
      · simp [List.filter_cons, hx, ih]
        omega
      · simp [List.filter_cons, hx, ih]

theorem foldl_min_le_iff (f : Nat → Nat) (t : Nat) (l : List Nat) :
    ∀ a : Nat, l.foldl (fun b p => min b (f p)) a ≤ t ↔ a ≤ t ∨ ∃ p ∈ l, f p ≤ t := by
  induction l with
  | nil => intro a; simp
  | cons x xs ih =>
      intro a
      rw [List.foldl_cons, ih, min_le_iff]
      constructor
      · rintro (⟨h | h⟩ | ⟨p, hp, hfp⟩)
        · exact Or.inl h
        · exact Or.inr ⟨x, List.mem_cons_self x xs, h⟩
        · exact Or.inr ⟨p, List.mem_cons_of_mem x hp, hfp⟩
      · rintro (h | ⟨p, hp, hfp⟩)
        · exact Or.inl (Or.inl h)
        · rcases List.mem_cons.mp hp with rfl | hp
          · exact Or.inl (Or.inr hfp)
          · exact Or.inr ⟨p, hp, hfp⟩

theorem length_filter_range_of_false (p : Nat → Bool) (n m : Nat) (hnm : n ≤ m)
    (hp : ∀ i, n ≤ i → p i = false) :
    ((List.range m).filter p).length = ((List.range n).filter p).length := by
  induction m, hnm using Nat.le_induction with
  | base => rfl
  | succ m hm ih =>
      rw [List.range_succ, List.filter_append, List.length_append, ih]
      simp [hp m hm]

theorem popcount64_xor (a b : Nat) :
    popcount64 (a ^^^ b) = hammingDist a b := by
  unfold popcount64 hammingDist
  congr 1
  apply List.filter_congr
  intro i _
  rw [Nat.testBit_xor]

theorem getD_le_one (bits : List Nat) (hb : ∀ b ∈ bits, b ≤ 1) (j : Nat) :
    bits.getD j 0 ≤ 1 := by
  rcases h : bits[j]? with _ | b
  · simp [List.getD_eq_getElem?_getD, h]
  · rw [List.getD_eq_getElem?_getD, h]
    exact hb b (List.getElem?_mem h)

theorem seqAt_fold_lt (bits : List Nat) (pos : Nat) (hb : ∀ b ∈ bits, b ≤ 1) :
    ∀ n, n ≤ 16 →
      (List.range n).foldl
        (fun seq i => ((seq * 2) ||| bits.getD (pos + i) 0) % 65536) 0 < 2 ^ n := by
  intro n
  induction n with
  | zero => intro _; simp
  | succ n ih =>
      intro hn
      rw [List.range_succ, List.foldl_append]
      set x :=
        (List.range n).foldl
          (fun seq i => ((seq * 2) ||| bits.getD (pos + i) 0) % 65536) 0 with hx
      have hxlt : x < 2 ^ n := ih (by omega)
      have hb1 : bits.getD (pos + n) 0 ≤ 1 := getD_le_one bits hb (pos + n)
      have hlor : ((x * 2) ||| bits.getD (pos + n) 0) < 2 ^ (n + 1) := by
        apply Nat.bitwise_lt
        · calc x * 2 < 2 ^ n * 2 := by omega
            _ = 2 ^ (n + 1) := by ring
        · calc bits.getD (pos + n) 0 ≤ 1 := hb1
            _ < 2 ^ (n + 1) := Nat.one_lt_two_pow (by omega)
      calc ((x * 2) ||| bits.getD (pos + n) 0) % 65536
          ≤ ((x * 2) ||| bits.getD (pos + n) 0) := Nat.mod_le _ _
        _ < 2 ^ (n + 1) := hlor

theorem seqAt_lt (bits : List Nat) (pos : Nat) (hb : ∀ b ∈ bits, b ≤ 1) :
    TETRAPhysicalLayer.seqAt bits pos < 2 ^ 11 :=
  seqAt_fold_lt bits pos hb 11 (by omega)

theorem tetra_hammingDistance_eq (a b : Nat) (ha : a < 2 ^ 11) (hbd : b < 2 ^ 11) :
    TETRAPhysicalLayer.hammingDistance a b 11 = hammingDist a b := by
  unfold TETRAPhysicalLayer.hammingDistance hammingDist
  rw [foldl_count_eq (fun i => Nat.testBit (a ^^^ b) i) (List.range 11) 0, Nat.zero_add]
  have hcongr :
      (List.range 11).filter (fun i => Nat.testBit (a ^^^ b) i)
        = (List.range 11).filter (fun i => a.testBit i != b.testBit i) := by
    apply List.filter_congr
    intro i _
    rw [Nat.testBit_xor]
  rw [hcongr]
  symm
  apply length_filter_range_of_false (fun i => a.testBit i != b.testBit i) 11 64 (by omega)
  intro i hi
  have h2 : 2 ^ 11 ≤ 2 ^ i := Nat.pow_le_pow_right (by omega) hi
  rw [Nat.testBit_eq_false_of_lt (lt_of_lt_of_le ha h2),
      Nat.testBit_eq_false_of_lt (lt_of_lt_of_le hbd h2)]
  rfl

theorem minDistAt_eq (bits : List Nat) (pos : Nat) (hb : ∀ b ∈ bits, b ≤ 1) :
    TETRAPhysicalLayer.minDistAt bits pos =
      min (hammingDist (TETRAPhysicalLayer.seqAt bits pos) TETRA_TRAINING_SEQ_NORMAL)
        (min (hammingDist (TETRAPhysicalLayer.seqAt bits pos) TETRA_TRAINING_SEQ_EXTENDED)
          (hammingDist (TETRAPhysicalLayer.seqAt bits pos) TETRA_TRAINING_SEQ_SYNC)) := by
  have hs := seqAt_lt bits pos hb
  unfold TETRAPhysicalLayer.minDistAt
  rw [tetra_hammingDistance_eq _ _ hs (by norm_num [TETRA_TRAINING_SEQ_NORMAL]),
      tetra_hammingDistance_eq _ _ hs (by norm_num [TETRA_TRAINING_SEQ_EXTENDED]),
      tetra_hammingDistance_eq _ _ hs (by norm_num [TETRA_TRAINING_SEQ_SYNC])]

theorem foldl_queueAudio_append (fs : List AudioFrame) :
    ∀ q : List AudioFrame, List.foldl AudioOutput.queueAudio q fs = q ++ fs := by
  induction fs with
  | nil => intro q; simp
  | cons f fs ih => intro q; simp [AudioOutput.queueAudio, ih]

theorem filter_idem {α : Type} (p : α → Bool) (l : List α) :
    (l.filter p).filter p = l.filter p := by
  induction l with
  | nil => rfl
  | cons a as ih =>
      by_cases h : p a <;> simp [List.filter_cons, h, ih]

theorem isEmpty_false_of_ne_nil {α : Type} {l : List α} (h : l ≠ []) :
    l.isEmpty = false := by
  cases l with
  | nil => exact absurd rfl h
  | cons a as => rfl

theorem handleGrant_policy_untouched (s : CallManagerState) (g : CallGrant)
    (now : Nat) (rc : Bool) :
    (CallManager.handleGrant s g now rc).enabled_talkgroups = s.enabled_talkgroups := by
  unfold CallManager.handleGrant
  split
  · split <;> rfl
  · rfl

theorem handleAudioFrame_policy_untouched (s : CallManagerState) (tg now : Nat) :
    (CallManager.handleAudioFrame s tg now).enabled_talkgroups = s.enabled_talkgroups := by
  unfold CallManager.handleAudioFrame
  split <;> rfl

theorem runOps_lookup_preserved (u : Nat) :
    ∀ (ops : List CallManager.Op) (s : CallManagerState),
      (∀ p, CallManager.Op.enableOp u p ∉ ops) →
      alistLookup s.enabled_talkgroups u ≠ some true →
      alistLookup (CallManager.runOps s ops).enabled_talkgroups u ≠ some true := by
  intro ops
  induction ops with
  | nil => intro s _ h1; exact h1
  | cons op rest ih =>
      intro s hno h1
      have hno' : ∀ p, CallManager.Op.enableOp u p ∉ rest := fun p hp =>
        hno p (List.mem_cons_of_mem _ hp)
      apply ih (CallManager.applyOp s op) hno'
      cases op with
      | grantOp g now rc =>
          simpa [CallManager.applyOp, handleGrant_policy_untouched] using h1
      | audioOp tg now =>
          simpa [CallManager.applyOp, handleAudioFrame_policy_untouched] using h1
      | endOp tg => simpa [CallManager.applyOp, CallManager.endCall] using h1
      | cleanupOp now =>
          simpa [CallManager.applyOp, CallManager.cleanupInactiveCalls] using h1
      | enableOp t p =>
          have ht : t ≠ u := by
            intro he
            subst he
            exact hno p (List.mem_cons_self _ _)
          simpa [CallManager.applyOp, CallManager.enableTalkgroup,
            alistLookup_insert_ne _ t u _ ht] using h1
      | disableOp t =>
          by_cases htu : t = u
          · subst htu
            simp [CallManager.applyOp, CallManager.disableTalkgroup,
              alistLookup_insert_self]
          · simpa [CallManager.applyOp, CallManager.disableTalkgroup,
              alistLookup_insert_ne _ t u _ htu] using h1
      | priorityOp t p =>
          simpa [CallManager.applyOp, CallManager.setTalkgroupPriority] using h1

theorem runOps_enabled_ne_nil :
    ∀ (ops : List CallManager.Op) (s : CallManagerState),
      s.enabled_talkgroups ≠ [] →
      (CallManager.runOps s ops).enabled_talkgroups ≠ [] := by
  intro ops
  induction ops with
  | nil => intro s h; exact h
  | cons op rest ih =>
      intro s h
      apply ih (CallManager.applyOp s op)
      cases op with
      | grantOp g now rc =>
          simpa [CallManager.applyOp, handleGrant_policy_untouched] using h
      | audioOp tg now =>
          simpa [CallManager.applyOp, handleAudioFrame_policy_untouched] using h
      | endOp tg => simpa [CallManager.applyOp, CallManager.endCall] using h
      | cleanupOp now =>
          simpa [CallManager.applyOp, CallManager.cleanupInactiveCalls] using h
      | enableOp t p =>
          simp [CallManager.applyOp, CallManager.enableTalkgroup, alistInsert_ne_nil]
      | disableOp t =>
          simp [CallManager.applyOp, CallManager.disableTalkgroup, alistInsert_ne_nil]
      | priorityOp t p =>
          simpa [CallManager.applyOp, CallManager.setTalkgroupPriority] using h

/-! ## Claim theorems -/

/-- Claim C1 (amended).  The P25 decoder upholds the resolution invariant:
`processGroupVoiceGrant` emits no grant when the channel identifier is absent
from `frequency_table_`, and every grant it does emit has a positive
frequency.  The DMR decoder does not: `parseChannelGrant` emits the grant
unconditionally, carrying whatever `rest_channel_freq_` currently holds —
including its initial 0. -/
theorem grant_frequency_resolution :
    (∀ (table : List (Nat × Nat)) (data : List Nat),
        alistLookup table (bitsToUint32 data 22 12 &&& 0xFF) = none →
        P25Decoder.processGroupVoiceGrant table data = none)
    ∧ (∀ (table : List (Nat × Nat)) (data : List Nat) (g : CallGrant),
        P25Decoder.processGroupVoiceGrant table data = some g → 0 < g.frequency)
    ∧ (∀ (rest : Nat) (data : List Nat),
        ∃ g, DMRDecoder.parseChannelGrant rest data = some g ∧ g.frequency = rest) := by
  refine ⟨?_, ?_, ?_⟩
  · intro table data h
    simp [P25Decoder.processGroupVoiceGrant, h]
  · intro table data g hg
    simp only [P25Decoder.processGroupVoiceGrant] at hg
    split at hg
    · cases hg
      assumption
    · cases hg
  · intro rest data
    exact ⟨_, rfl, rfl⟩

/-- Witness for C1: with an empty identifier table the concrete
`GROUP_VOICE_GRANT` TSBK emits nothing; with identifier 1 resolved, the
emitted grant has positive frequency; the concrete DMR channel grant is
always emitted with the rest-channel frequency. -/
theorem grant_frequency_resolution_witness :
    P25Decoder.processGroupVoiceGrant [] p25GroupVoiceGrantBits = none
    ∧ 0 < (850000000000 : Nat)
    ∧ ∃ g, DMRDecoder.parseChannelGrant 851000000 dmrCsbkGrantData = some g ∧
        g.frequency = 851000000 :=
  ⟨grant_frequency_resolution.1 [] p25GroupVoiceGrantBits (by decide),
   grant_frequency_resolution.2.1 [(1, 850000000000)] p25GroupVoiceGrantBits
     { talkgroup := 1234, radio_id := 5678, frequency := 850000000000,
       ctype := CallType.GROUP, priority := 5, encrypted := false } (by decide),
   grant_frequency_resolution.2.2 851000000 dmrCsbkGrantData⟩

/-- Counterexample for C1 as stated: `parseChannelGrant` with
`rest_channel_freq_` still at its initial 0 does emit a grant (with
frequency 0), for the concrete decoded CSBK payload. -/
theorem dmr_zero_frequency_grant_counterexample :
    DMRDecoder.parseChannelGrant 0 dmrCsbkGrantData
      = some { talkgroup := 1234, radio_id := 5678, frequency := 0,
               ctype := CallType.GROUP, priority := 5, encrypted := false } := by
  decide

/-- Claim C2 (amended).  `processIdentifierUpdate` stores
`base_multiplier * 5000` Hz for the identifier (the 5 kHz scaling in the
source, not the claimed 5 Hz unit; spacing and offset are ignored), and the
subsequent `GROUP_VOICE_GRANT` whose 12-bit channel field has low byte 1
emits exactly one grant at the stored table value — 850 000 000 000 Hz —
with talkgroup 1234, radio id 5678, not encrypted. -/
theorem p25_identifier_update_amended :
    (∀ (table : List (Nat × Nat)) (data : List Nat),
        alistLookup (P25Decoder.processIdentifierUpdate table data)
            (bitsToUint32 data 6 4)
          = some (bitsToUint32 data 10 32 * 5000))
    ∧ P25Decoder.processGroupVoiceGrant
          (P25Decoder.processIdentifierUpdate [] p25IdentifierUpdateBits)
          p25GroupVoiceGrantBits
        = some { talkgroup := 1234, radio_id := 5678, frequency := 850000000000,
                 ctype := CallType.GROUP, priority := 5, encrypted := false } := by
  constructor
  · intro table data
    simp only [P25Decoder.processIdentifierUpdate]
    exact alistLookup_insert_self _ _ _
  · decide

/-- Counterexample for C2 as stated: after the concrete
`IDENTIFIER_UPDATE(id=1, base_mult=170000000, spacing=100, offset=0)` the
table maps identifier 1 to 850 000 000 000 Hz — not `170000000 * 5` — and the
subsequent grant is emitted at that value, not at 850 002 500 Hz. -/
theorem p25_identifier_scale_counterexample :
    alistLookup (P25Decoder.processIdentifierUpdate [] p25IdentifierUpdateBits) 1
        = some 850000000000
    ∧ (850000000000 : Nat) ≠ 170000000 * 5
    ∧ P25Decoder.processGroupVoiceGrant
          (P25Decoder.processIdentifierUpdate [] p25IdentifierUpdateBits)
          p25GroupVoiceGrantBits
        = some { talkgroup := 1234, radio_id := 5678, frequency := 850000000000,
                 ctype := CallType.GROUP, priority := 5, encrypted := false }
    ∧ (850000000000 : Nat) ≠ 850002500 :=
  ⟨by decide, by decide, by decide, by decide⟩

/-- Claim C5 (amended).  The playback queue is an unbounded FIFO:
`queueAudio` appends (so a sequence of enqueues reproduces its input order),
`processQueue` dequeues the oldest frame, and an enqueue never changes which
frame is dequeued next — no frame is ever dropped and no high-water mark or
drop counter exists in the source. -/
theorem audio_queue_unbounded_fifo :
    (∀ fs : List AudioFrame, List.foldl AudioOutput.queueAudio [] fs = fs)
    ∧ (∀ q : List AudioFrame,
        (AudioOutput.processQueue q).2 = q.head?
          ∧ (AudioOutput.processQueue q).1 = q.tail)
    ∧ (∀ (q : List AudioFrame) (f : AudioFrame), q ≠ [] →
        (AudioOutput.processQueue (AudioOutput.queueAudio q f)).2 = q.head?) := by
  refine ⟨?_, ?_, ?_⟩
  · intro fs
    simpa using foldl_queueAudio_append fs []
  · intro q
    cases q <;> simp [AudioOutput.processQueue]
  · intro q f hq
    cases q with
    | nil => exact absurd rfl hq
    | cons a as => simp [AudioOutput.queueAudio, AudioOutput.processQueue]

/-- Witness for C5: enqueuing onto a non-empty queue leaves the head frame
the next to be played. -/
theorem audio_queue_unbounded_fifo_witness :
    (AudioOutput.processQueue
        (AudioOutput.queueAudio [mkAudioFrame 0] (mkAudioFrame 1))).2
      = [mkAudioFrame 0].head? :=
  audio_queue_unbounded_fifo.2.2 [mkAudioFrame 0] (mkAudioFrame 1) (by decide)

/-- Counterexample for C5 as stated: an enqueue at any purported high-water
mark grows the queue past the mark (concretely, enqueuing onto a 2-frame
queue yields 3 frames with the oldest still present), so no mark bounds the
queue. -/
theorem audio_queue_highwater_counterexample :
    AudioOutput.queueAudio [mkAudioFrame 0, mkAudioFrame 1] (mkAudioFrame 2)
        = [mkAudioFrame 0, mkAudioFrame 1, mkAudioFrame 2]
    ∧ ¬ ∃ mark : Nat, ∀ (q : List AudioFrame) (f : AudioFrame),
        q.length = mark → (AudioOutput.queueAudio q f).length ≤ mark := by
  constructor
  · rfl
  · rintro ⟨mark, h⟩
    have hm := h (List.replicate mark (mkAudioFrame 0)) (mkAudioFrame 0) (by simp)
    simp [AudioOutput.queueAudio] at hm

/-- Claim C6 (code bug).  `checkCRC` is a stub that returns `true`, so
`processFrame` accepts and decodes two concrete 76-bit frames that differ
only in their 16-bit CRC field (values `0x0001` and `0xFFFE`, of which at
most one can match any CRC computed over the data fields): the CRC is never
verified and no bad-CRC frame is rejected. -/
theorem smartnet_crc_stub_accepts :
    bitsToUint16 smartnetFrameA 40 16 = 0x0001
    ∧ bitsToUint16 smartnetFrameB 40 16 = 0xFFFE
    ∧ (SmartNetDecoder.processFrame 851000000 25000 smartnetFrameA).1 = true
    ∧ (SmartNetDecoder.processFrame 851000000 25000 smartnetFrameB).1 = true
    ∧ (SmartNetDecoder.processFrame 851000000 25000 smartnetFrameA).2
        = some { talkgroup := 101, radio_id := 0, frequency := 851250000,
                 ctype := CallType.GROUP, priority := 5, encrypted := false }
    ∧ (SmartNetDecoder.processFrame 851000000 25000 smartnetFrameB).2
        = some { talkgroup := 101, radio_id := 0, frequency := 851250000,
                 ctype := CallType.GROUP, priority := 5, encrypted := false } :=
  ⟨by decide, by decide, by decide, by decide, by decide, by decide⟩

/-- Claim C7.  Every OSW whose 11-bit command has top 5 bits zero yields
exactly one group-call grant: talkgroup = address, radio id 0, not encrypted,
frequency = base + (low 6 bits of command) × spacing; concretely, with the
default band plan (base 851 MHz, spacing 25 kHz), address 101 and channel 10
give talkgroup 101 at 851 250 000 Hz. -/
theorem smartnet_group_call_grant :
    (∀ base spacing address group command : Nat,
        ((command >>> 6) &&& 0x1F) = 0 →
        SmartNetDecoder.decodeOSW base spacing address group command
          = some { talkgroup := address, radio_id := 0,
                   frequency := base + (command &&& 0x3F) * spacing,
                   ctype := CallType.GROUP, priority := 5, encrypted := false })
    ∧ SmartNetDecoder.decodeOSW 851000000 25000 101 0 10
        = some { talkgroup := 101, radio_id := 0, frequency := 851250000,
                 ctype := CallType.GROUP, priority := 5, encrypted := false } := by
  constructor
  · intro base spacing address group command h
    simp [SmartNetDecoder.decodeOSW, h]
  · decide

/-- Witness for C7: the spec's concrete scenario, obtained from the general
statement at command 10. -/
theorem smartnet_group_call_grant_witness :
    ((10 >>> 6) &&& 0x1F) = 0
    ∧ SmartNetDecoder.decodeOSW 851000000 25000 101 0 10
        = some { talkgroup := 101, radio_id := 0,
                 frequency := 851000000 + (10 &&& 0x3F) * 25000,
                 ctype := CallType.GROUP, priority := 5, encrypted := false } :=
  ⟨by decide, smartnet_group_call_grant.1 851000000 25000 101 0 10 (by decide)⟩

/-- Claim C9.  For symbols and stored phase indices in {0,1,2,3},
`differentialDecode` outputs the dibit of the table {0↦00, 1↦01, 2↦11, 3↦10}
applied to `(sym − prev + 4) mod 4`; the output does not depend on the
alternate-constellation flag, and the state update stores the symbol and
toggles the flag. -/
theorem dqpsk_differential_decode_table :
    ∀ symbol prev : Int, 0 ≤ symbol → symbol ≤ 3 → 0 ≤ prev → prev ≤ 3 →
      ∀ alt : Bool,
        (DQPSKDemodulator.differentialDecode symbol prev alt).1
            = DQPSKDemodulator.dibitMapSpec ((symbol - prev + 4) % 4)
          ∧ (DQPSKDemodulator.differentialDecode symbol prev true).1
            = (DQPSKDemodulator.differentialDecode symbol prev false).1
          ∧ (DQPSKDemodulator.differentialDecode symbol prev alt).2
            = (symbol, ! alt) := by
  intro symbol prev h1 h2 h3 h4 alt
  interval_cases symbol <;> interval_cases prev <;> cases alt <;>
    exact ⟨by decide, by decide, by decide⟩

/-- Claim C3.  Under a monotone millisecond clock, `cleanupInactiveCalls`
keeps a call exactly when `now − last_activity ≤ 5000` ms (so removal happens
exactly when the gap strictly exceeds 5000 ms); if every call is at least
5001 ms stale the map is emptied; the sweep is idempotent (each overdue call
is removed exactly once); and no `CallManager` operation ever decreases
`total_calls`. -/
theorem call_timeout_eviction :
    (∀ (s : CallManagerState) (now tg : Nat) (c : ActiveCall),
        now < 2 ^ 64 → c.last_activity ≤ now →
        ((tg, c) ∈ (CallManager.cleanupInactiveCalls s now).active_calls ↔
          (tg, c) ∈ s.active_calls ∧ now - c.last_activity ≤ 5000))
    ∧ (∀ (s : CallManagerState) (now : Nat), now < 2 ^ 64 →
        (∀ tg c, (tg, c) ∈ s.active_calls → c.last_activity + 5001 ≤ now) →
        (CallManager.cleanupInactiveCalls s now).active_calls = [])
    ∧ (∀ (s : CallManagerState) (now : Nat),
        CallManager.cleanupInactiveCalls (CallManager.cleanupInactiveCalls s now) now
          = CallManager.cleanupInactiveCalls s now)
    ∧ (∀ (s : CallManagerState) (op : CallManager.Op),
        s.total_calls ≤ (CallManager.applyOp s op).total_calls) := by
  refine ⟨?_, ?_, ?_, ?_⟩
  · intro s now tg c hnow hla
    simp only [CallManager.cleanupInactiveCalls, List.mem_filter,
      u64sub_eq_sub hla hnow, CallManager.CALL_TIMEOUT_MS, decide_eq_true_eq]
  · intro s now hnow hall
    simp only [CallManager.cleanupInactiveCalls]
    rw [List.filter_eq_nil_iff]
    rintro ⟨tg, c⟩ hmem
    have hstale := hall tg c hmem
    have hla : c.last_activity ≤ now := by omega
    simp [u64sub_eq_sub hla hnow, CallManager.CALL_TIMEOUT_MS]
    omega
  · intro s now
    simp only [CallManager.cleanupInactiveCalls]
    rw [filter_idem]
  · intro s op
    cases op with
    | grantOp g now rc =>
        simp only [CallManager.applyOp, CallManager.handleGrant]
        by_cases he : CallManager.isTalkgroupEnabled s g.talkgroup
        · simp only [he, if_true]
          cases hlu : alistLookup s.active_calls g.talkgroup <;> simp [hlu]
        · simp [he]
    | audioOp tg now =>
        simp only [CallManager.applyOp, CallManager.handleAudioFrame]
        cases hlu : alistLookup s.active_calls tg <;> simp [hlu]
    | endOp tg => simp [CallManager.applyOp, CallManager.endCall]
    | cleanupOp now => simp [CallManager.applyOp, CallManager.cleanupInactiveCalls]
    | enableOp t p => simp [CallManager.applyOp, CallManager.enableTalkgroup]
    | disableOp t => simp [CallManager.applyOp, CallManager.disableTalkgroup]
    | priorityOp t p => simp [CallManager.applyOp, CallManager.setTalkgroupPriority]

/-- Witness for C3: a call last active at 1000 ms is evicted by a sweep at
6001 ms (gap 5001 ms), the map empties, the sweep is idempotent there, and
the sweep does not decrease `total_calls`. -/
theorem call_timeout_eviction_witness :
    ((7, witnessCall) ∈
        (CallManager.cleanupInactiveCalls witnessState 6001).active_calls ↔
      (7, witnessCall) ∈ witnessState.active_calls ∧
        6001 - witnessCall.last_activity ≤ 5000)
    ∧ (CallManager.cleanupInactiveCalls witnessState 6001).active_calls = []
    ∧ CallManager.cleanupInactiveCalls
          (CallManager.cleanupInactiveCalls witnessState 6001) 6001
        = CallManager.cleanupInactiveCalls witnessState 6001
    ∧ witnessState.total_calls ≤
        (CallManager.applyOp witnessState (CallManager.Op.cleanupOp 6001)).total_calls :=
  ⟨call_timeout_eviction.1 witnessState 6001 7 witnessCall (by decide) (by decide),
   call_timeout_eviction.2.1 witnessState 6001 (by decide)
     (by
       intro tg c hmem
       simp only [witnessState, List.mem_singleton, Prod.mk.injEq] at hmem
       rw [hmem.2]
       decide),
   call_timeout_eviction.2.2.1 witnessState 6001,
   call_timeout_eviction.2.2.2 witnessState (CallManager.Op.cleanupOp 6001)⟩

/-- Claim C4.  `handleGrant` admits a grant exactly per the enabled-set
policy: an empty enabled map admits every talkgroup; a non-empty map admits
exactly the talkgroups whose entry is `true`; a non-admitted grant leaves the
state untouched; an admitted grant for an existing call only refreshes its
`last_activity`; an admitted grant for a new talkgroup inserts a fresh
`ActiveCall` and increments `total_calls` by one. -/
theorem handle_grant_policy :
    (∀ (s : CallManagerState) (tg : Nat), s.enabled_talkgroups = [] →
        CallManager.isTalkgroupEnabled s tg = true)
    ∧ (∀ (s : CallManagerState) (tg : Nat), s.enabled_talkgroups ≠ [] →
        (CallManager.isTalkgroupEnabled s tg = true ↔
          alistLookup s.enabled_talkgroups tg = some true))
    ∧ (∀ (s : CallManagerState) (g : CallGrant) (now : Nat) (rc : Bool),
        CallManager.isTalkgroupEnabled s g.talkgroup = false →
        CallManager.handleGrant s g now rc = s)
    ∧ (∀ (s : CallManagerState) (g : CallGrant) (now : Nat) (rc : Bool)
          (c : ActiveCall),
        CallManager.isTalkgroupEnabled s g.talkgroup = true →
        alistLookup s.active_calls g.talkgroup = some c →
        (CallManager.handleGrant s g now rc).active_calls
            = alistInsert s.active_calls g.talkgroup { c with last_activity := now }
          ∧ (CallManager.handleGrant s g now rc).total_calls = s.total_calls)
    ∧ (∀ (s : CallManagerState) (g : CallGrant) (now : Nat) (rc : Bool),
        CallManager.isTalkgroupEnabled s g.talkgroup = true →
        alistLookup s.active_calls g.talkgroup = none →
        (CallManager.handleGrant s g now rc).active_calls
            = alistInsert s.active_calls g.talkgroup
                { grant := g, start_time := now, last_activity := now,
                  frame_count := 0, recording := rc }
          ∧ (CallManager.handleGrant s g now rc).total_calls = s.total_calls + 1) := by
  refine ⟨?_, ?_, ?_, ?_, ?_⟩
  · intro s tg h
    simp [CallManager.isTalkgroupEnabled, h, alistLookup]
  · intro s tg h
    cases hl : alistLookup s.enabled_talkgroups tg with
    | none =>
        simp [CallManager.isTalkgroupEnabled, hl, isEmpty_false_of_ne_nil h]
    | some b => cases b <;> simp [CallManager.isTalkgroupEnabled, hl]
  · intro s g now rc h
    simp [CallManager.handleGrant, h]
  · intro s g now rc c h hl
    simp [CallManager.handleGrant, h, hl]
  · intro s g now rc h hl
    simp [CallManager.handleGrant, h, hl]

/-- Witness for C4 at concrete states: the empty policy admits talkgroup 99;
the policy `[(3, true)]` admits exactly 3; a grant for 4 under that policy is
dropped; a repeated grant for talkgroup 7 refreshes the existing call; a
grant for fresh talkgroup 8 inserts a call and bumps `total_calls`. -/
theorem handle_grant_policy_witness :
    CallManager.isTalkgroupEnabled witnessState 99 = true
    ∧ (CallManager.isTalkgroupEnabled
          { witnessState with enabled_talkgroups := [(3, true)] } 3 = true ↔
        alistLookup [(3, true)] 3 = some true)
    ∧ CallManager.handleGrant
          { witnessState with enabled_talkgroups := [(3, true)] }
          { witnessGrant with talkgroup := 4 } 2000 false
        = { witnessState with enabled_talkgroups := [(3, true)] }
    ∧ ((CallManager.handleGrant witnessState witnessGrant 2000 false).active_calls
          = alistInsert witnessState.active_calls 7
              { witnessCall with last_activity := 2000 }
        ∧ (CallManager.handleGrant witnessState witnessGrant 2000 false).total_calls
          = witnessState.total_calls)
    ∧ ((CallManager.handleGrant witnessState
            { witnessGrant with talkgroup := 8 } 2000 false).active_calls
          = alistInsert witnessState.active_calls 8
              { grant := { witnessGrant with talkgroup := 8 }, start_time := 2000,
                last_activity := 2000, frame_count := 0, recording := false }
        ∧ (CallManager.handleGrant witnessState
            { witnessGrant with talkgroup := 8 } 2000 false).total_calls
          = witnessState.total_calls + 1) :=
  ⟨handle_grant_policy.1 witnessState 99 (by decide),
   handle_grant_policy.2.1 { witnessState with enabled_talkgroups := [(3, true)] } 3
     (by decide),
   handle_grant_policy.2.2.1 { witnessState with enabled_talkgroups := [(3, true)] }
     { witnessGrant with talkgroup := 4 } 2000 false (by decide),
   handle_grant_policy.2.2.2.1 witnessState witnessGrant 2000 false witnessCall
     (by decide) (by decide),
   handle_grant_policy.2.2.2.2 witnessState { witnessGrant with talkgroup := 8 }
     2000 false (by decide) (by decide)⟩

/-- Claim C8.  Each sync detector accepts exactly the candidates within its
Hamming tolerance: P25 accepts a 48-bit window iff its distance to the frame
sync is at most 4; SmartNet accepts a 16-bit window iff its distance to the
sync word is at most 2; TETRA locks iff some position of the scanned window
holds an 11-bit word within distance 3 of one of the three training
sequences.  A candidate one bit beyond the tolerance is therefore rejected. -/
theorem sync_tolerance_thresholds :
    (∀ bits : List Nat, 48 ≤ bits.length →
        (P25Decoder.detectFrameSync bits = true ↔
          hammingDist (bitsToU64 bits 0 48) P25_FRAME_SYNC_1 ≤ 4))
    ∧ (∀ bits : List Nat, 16 ≤ bits.length →
        (SmartNetDecoder.detectSync bits = true ↔
          hammingDist (SmartNetDecoder.syncWordAt bits) SMARTNET_SYNC ≤ 2))
    ∧ (∀ bits : List Nat, 64 ≤ bits.length → (∀ b ∈ bits, b ≤ 1) →
        (TETRAPhysicalLayer.detectTrainingSequence bits = true ↔
          ∃ pos, pos < min (bits.length - 11) 64 ∧
            min (hammingDist (TETRAPhysicalLayer.seqAt bits pos)
                  TETRA_TRAINING_SEQ_NORMAL)
              (min (hammingDist (TETRAPhysicalLayer.seqAt bits pos)
                      TETRA_TRAINING_SEQ_EXTENDED)
                (hammingDist (TETRAPhysicalLayer.seqAt bits pos)
                  TETRA_TRAINING_SEQ_SYNC)) ≤ 3)) := by
  refine ⟨?_, ?_, ?_⟩
  · intro bits h
    have hlen : ¬ bits.length < 48 := by omega
    simp [P25Decoder.detectFrameSync, hlen, popcount64_xor]
  · intro bits h
    have hlen : ¬ bits.length < 16 := by omega
    simp [SmartNetDecoder.detectSync, hlen, popcount64_xor]
  · intro bits hlen hb
    have hnl : ¬ bits.length < 64 := by omega
    have hmd : ∀ pos, TETRAPhysicalLayer.minDistAt bits pos =
        min (hammingDist (TETRAPhysicalLayer.seqAt bits pos)
              TETRA_TRAINING_SEQ_NORMAL)
          (min (hammingDist (TETRAPhysicalLayer.seqAt bits pos)
                  TETRA_TRAINING_SEQ_EXTENDED)
            (hammingDist (TETRAPhysicalLayer.seqAt bits pos)
              TETRA_TRAINING_SEQ_SYNC)) :=
      fun pos => minDistAt_eq bits pos hb
    simp only [TETRAPhysicalLayer.detectTrainingSequence, hnl, if_false,
      decide_eq_true_eq, TETRAPhysicalLayer.SYNC_ERRORS_ALLOWED]
    rw [foldl_min_le_iff]
    simp only [hmd, List.mem_range]
    constructor
    · rintro (h100 | ⟨pos, hpos, hle⟩)
      · omega
      · exact ⟨pos, hpos, hle⟩
    · rintro ⟨pos, hpos, hle⟩
      exact Or.inr ⟨pos, hpos, hle⟩

/-- Witness for C8 at concrete windows: the exact P25 sync pattern, the exact
SmartNet sync pattern, and a 64-bit buffer opening with the TETRA
synchronization training sequence. -/
theorem sync_tolerance_thresholds_witness :
    (P25Decoder.detectFrameSync p25SyncExactBits = true ↔
        hammingDist (bitsToU64 p25SyncExactBits 0 48) P25_FRAME_SYNC_1 ≤ 4)
    ∧ (SmartNetDecoder.detectSync smartnetSyncExactBits = true ↔
        hammingDist (SmartNetDecoder.syncWordAt smartnetSyncExactBits)
          SMARTNET_SYNC ≤ 2)
    ∧ (TETRAPhysicalLayer.detectTrainingSequence tetraSyncWindowBits = true ↔
        ∃ pos, pos < min (tetraSyncWindowBits.length - 11) 64 ∧
          min (hammingDist (TETRAPhysicalLayer.seqAt tetraSyncWindowBits pos)
                TETRA_TRAINING_SEQ_NORMAL)
            (min (hammingDist (TETRAPhysicalLayer.seqAt tetraSyncWindowBits pos)
                    TETRA_TRAINING_SEQ_EXTENDED)
              (hammingDist (TETRAPhysicalLayer.seqAt tetraSyncWindowBits pos)
                TETRA_TRAINING_SEQ_SYNC)) ≤ 3) :=
  ⟨sync_tolerance_thresholds.1 p25SyncExactBits (by decide),
   sync_tolerance_thresholds.2.1 smartnetSyncExactBits (by decide),
   sync_tolerance_thresholds.2.2 tetraSyncWindowBits (by decide) (by decide)⟩

/-- Claim C10.  Starting from the constructor state, once any
`disableTalkgroup(t)` has run — even for a never-enabled `t` — the enabled
map holds an explicit entry and is permanently non-empty: for every talkgroup
`u` never passed to `enableTalkgroup` across the whole operation sequence,
`isTalkgroupEnabled u` is `false` afterwards and `handleGrant` drops grants
for `u`. -/
theorem disable_ends_allow_all :
    ∀ (ops : List CallManager.Op) (t u : Nat),
      CallManager.Op.disableOp t ∈ ops →
      (∀ p, CallManager.Op.enableOp u p ∉ ops) →
      CallManager.isTalkgroupEnabled
          (CallManager.runOps CallManager.initialState ops) u = false
        ∧ (∀ (g : CallGrant) (now : Nat) (rc : Bool), g.talkgroup = u →
            CallManager.handleGrant
                (CallManager.runOps CallManager.initialState ops) g now rc
              = CallManager.runOps CallManager.initialState ops) := by
  intro ops t u hmem hno
  obtain ⟨l1, l2, rfl⟩ := List.append_of_mem hmem
  have hno1 : ∀ p, CallManager.Op.enableOp u p ∉ l1 := fun p hp =>
    hno p (List.mem_append_left _ hp)
  have hno2 : ∀ p, CallManager.Op.enableOp u p ∉ l2 := fun p hp =>
    hno p (List.mem_append_right _ (List.mem_cons_of_mem _ hp))
  have hrun : CallManager.runOps CallManager.initialState (l1 ++ CallManager.Op.disableOp t :: l2)
      = CallManager.runOps
          (CallManager.applyOp (CallManager.runOps CallManager.initialState l1)
            (CallManager.Op.disableOp t)) l2 := by
    simp [CallManager.runOps, List.foldl_append]
  set mid := CallManager.applyOp (CallManager.runOps CallManager.initialState l1)
      (CallManager.Op.disableOp t) with hmid
  have hpre : alistLookup
      (CallManager.runOps CallManager.initialState l1).enabled_talkgroups u
        ≠ some true :=
    runOps_lookup_preserved u l1 CallManager.initialState hno1
      (by simp [CallManager.initialState, alistLookup])
  have hmidlk : alistLookup mid.enabled_talkgroups u ≠ some true := by
    rw [hmid]
    by_cases htu : t = u
    · subst htu
      simp [CallManager.applyOp, CallManager.disableTalkgroup, alistLookup_insert_self]
    · simpa [CallManager.applyOp, CallManager.disableTalkgroup,
        alistLookup_insert_ne _ t u _ htu] using hpre
  have hmidne : mid.enabled_talkgroups ≠ [] := by
    rw [hmid]
    simp [CallManager.applyOp, CallManager.disableTalkgroup, alistInsert_ne_nil]
  have hfinlk : alistLookup (CallManager.runOps mid l2).enabled_talkgroups u
      ≠ some true := runOps_lookup_preserved u l2 mid hno2 hmidlk
  have hfinne : (CallManager.runOps mid l2).enabled_talkgroups ≠ [] :=
    runOps_enabled_ne_nil l2 mid hmidne
  have henabled : CallManager.isTalkgroupEnabled (CallManager.runOps mid l2) u = false := by
    unfold CallManager.isTalkgroupEnabled
    cases hl : alistLookup (CallManager.runOps mid l2).enabled_talkgroups u with
    | none => simp [isEmpty_false_of_ne_nil hfinne]
    | some b =>
        cases b with
        | true => exact absurd hl hfinlk
        | false => rfl
  rw [hrun]
  refine ⟨henabled, ?_⟩
  intro g now rc hg
  have hge : CallManager.isTalkgroupEnabled (CallManager.runOps mid l2) g.talkgroup = false := by
    rw [hg]
    exact henabled
  simp [CallManager.handleGrant, hge]

/-- Witness for C10: after the single operation `disableTalkgroup 7`,
talkgroup 5 (never enabled) is not admitted. -/
theorem disable_ends_allow_all_witness :
    CallManager.isTalkgroupEnabled
        (CallManager.runOps CallManager.initialState [CallManager.Op.disableOp 7]) 5
      = false :=
  (disable_ends_allow_all [CallManager.Op.disableOp 7] 7 5 (by simp)
    (by intro p; simp)).1

/-- Witness for C9 at symbol 3, previous phase 1, alternate flag set. -/
theorem dqpsk_differential_decode_table_witness :
    (DQPSKDemodulator.differentialDecode 3 1 true).1
        = DQPSKDemodulator.dibitMapSpec ((3 - 1 + 4) % 4)
      ∧ (DQPSKDemodulator.differentialDecode 3 1 true).1
        = (DQPSKDemodulator.differentialDecode 3 1 false).1
      ∧ (DQPSKDemodulator.differentialDecode 3 1 true).2 = (3, ! true) :=
  dqpsk_differential_decode_table 3 1 (by decide) (by decide) (by decide)
    (by decide) true

end TrunkedSdr
